import Mathlib

/-!
Verification development for the bot-bluesky-reliefs repository.

The definitions below are shallow embeddings of the TypeScript sources:
JavaScript numbers are modelled as exact rationals (ℚ) wherever the code
only performs field arithmetic, comparisons, floor and round, and as real
numbers (ℝ) where the code uses transcendental functions (log, tan, cos,
sin, sqrt).  `Math.floor` is `Int.floor`, `Math.round` is floor of x+1/2
(JavaScript rounds half toward +infinity), and the JavaScript remainder
operator `%` (sign of the dividend) is modelled by `jsRemOne` for the
`% 1` use in the noise hash.  Fallible code returns `Option`.
-/

namespace BotReliefs

/-! ### JavaScript primitives -/

/-- JavaScript `Math.round`: rounds half toward positive infinity. -/
def jsRound (x : ℚ) : ℤ := ⌊x + 1/2⌋

/-- JavaScript `String.prototype.includes`: substring containment. -/
def jsIncludes (s pat : String) : Bool := decide (pat.toList <:+: s.toList)

/-- JavaScript `Number.MAX_VALUE` (largest finite double), exactly. -/
def jsNumberMaxValue : ℚ := (2 ^ 53 - 1) * 2 ^ 971

/-- JavaScript `Number.MIN_VALUE` (smallest positive double, 5e-324), exactly. -/
def jsNumberMinValue : ℚ := 1 / 2 ^ 1074

/-! ### Terrain classification
(src/generators/renderers/helpers/terrain.ts and config.ts) -/

/-- TERRAIN_THRESHOLDS from src/generators/renderers/config.ts (lines 46-52). -/
structure TerrainThresholds where
  flat : ℚ
  rolling : ℚ
  hilly : ℚ
  lowAltitude : ℚ
  highAltitude : ℚ

def TERRAIN_THRESHOLDS : TerrainThresholds :=
  { flat := 30, rolling := 150, hilly := 800, lowAltitude := 200, highAltitude := 1000 }

/-- TerrainAnalysis record (renderers/types.ts).  All numeric statistics are
rationals except the standard deviation, which needs a real square root. -/
structure TerrainAnalysis where
  terrainType : String
  elevationRange : ℚ
  averageElevation : ℚ
  elevationVariability : ℝ

/-- RenderParams record (renderers/types.ts). -/
structure RenderParams where
  horizonPosition : ℚ
  perspectiveExponent : ℚ
  amplification : ℚ
  peakEmphasis : ℚ
  numLines : ℚ
deriving DecidableEq

/-- DEFAULT_RENDER_PARAMS from renderers/config.ts (lines 55-61). -/
def DEFAULT_RENDER_PARAMS : RenderParams :=
  { horizonPosition := 0.75, perspectiveExponent := 0.65, amplification := 650,
    peakEmphasis := 0.65, numLines := 30 }

/-- One entry of TERRAIN_ADJUSTMENTS (renderers/config.ts, lines 64-93). -/
structure TerrainAdjustment where
  horizonPosition : ℚ
  perspectiveExponent : ℚ
  amplificationFactor : ℚ
  peakEmphasis : ℚ
  lineMultiplier : ℚ

def TERRAIN_ADJUSTMENTS_flat : TerrainAdjustment :=
  { horizonPosition := 0.5, perspectiveExponent := 0.7, amplificationFactor := 0.1,
    peakEmphasis := 0.1, lineMultiplier := 1 }

def TERRAIN_ADJUSTMENTS_rolling : TerrainAdjustment :=
  { horizonPosition := 0.5, perspectiveExponent := 0.75, amplificationFactor := 0.3,
    peakEmphasis := 0.15, lineMultiplier := 1 }

def TERRAIN_ADJUSTMENTS_hilly : TerrainAdjustment :=
  { horizonPosition := 0.5, perspectiveExponent := 0.75, amplificationFactor := 0.4,
    peakEmphasis := 0.2, lineMultiplier := 1 }

def TERRAIN_ADJUSTMENTS_mountainous : TerrainAdjustment :=
  { horizonPosition := 0.6, perspectiveExponent := 0.85, amplificationFactor := 0.92,
    peakEmphasis := 0.92, lineMultiplier := 1.1 }

/-- Embeds `analyzeTerrain` from terrain.ts (lines 7-64).  The input list holds the
`elevation` field of each ElevationPoint (the code's first step is
`points.map(p => p.elevation)`); no other field of the points is read. -/
noncomputable def analyzeTerrain (points : List ℚ) : TerrainAnalysis :=
  match points with
  | [] =>
    { terrainType := "unknown", elevationRange := 0, averageElevation := 0,
      elevationVariability := 0 }
  | e :: rest =>
    let elevations := e :: rest
    let minElev := rest.foldl min e
    let maxElev := rest.foldl max e
    let elevRange := maxElev - minElev
    let mean := elevations.sum / (elevations.length : ℚ)
    let sumSquaredDiffs := (elevations.map (fun v => (v - mean) ^ 2)).sum
    let stdDev : ℝ := Real.sqrt ((sumSquaredDiffs / (elevations.length : ℚ) : ℚ) : ℝ)
    let baseType : String :=
      if TERRAIN_THRESHOLDS.hilly < elevRange then "mountainous"
      else if TERRAIN_THRESHOLDS.rolling < elevRange then "hilly"
      else if TERRAIN_THRESHOLDS.flat < elevRange then "rolling"
      else "flat"
    let terrainType : String :=
      if mean < TERRAIN_THRESHOLDS.lowAltitude then "low-" ++ baseType
      else if TERRAIN_THRESHOLDS.highAltitude < mean then "high-" ++ baseType
      else baseType
    { terrainType := terrainType, elevationRange := elevRange, averageElevation := mean,
      elevationVariability := stdDev }

/-- The anchored regex replace in getTerrainRenderParams (terrain.ts line
79) that drops a leading "low-" or "high-" qualifier from the type name. -/
def stripAltitudeQualifier (t : String) : String :=
  if "low-".toList <+: t.toList then String.mk (t.toList.drop 4)
  else if "high-".toList <+: t.toList then String.mk (t.toList.drop 5)
  else t

/-- Embeds `getTerrainRenderParams` from terrain.ts (lines 69-146).  Only the
`style` field of the RenderOptions argument is read by the source, so the
embedding takes the style string directly.  The sequential mutations of
`params` become a chain of record updates in source order. -/
noncomputable def getTerrainRenderParams (terrain : TerrainAnalysis) (style : String) :
    RenderParams :=
  if style = "perspective" then
    let baseType := stripAltitudeQualifier terrain.terrainType
    let terrainParams :=
      if baseType = "flat" then TERRAIN_ADJUSTMENTS_flat
      else if baseType = "rolling" then TERRAIN_ADJUSTMENTS_rolling
      else if baseType = "hilly" then TERRAIN_ADJUSTMENTS_hilly
      else if baseType = "mountainous" then TERRAIN_ADJUSTMENTS_mountainous
      else TERRAIN_ADJUSTMENTS_rolling
    let rangeNormalized : ℚ := min 1 (terrain.elevationRange / 5000)
    let baseAmplification : ℚ := 550 * terrainParams.amplificationFactor
    let p1 : RenderParams :=
      { horizonPosition := terrainParams.horizonPosition
        perspectiveExponent := terrainParams.perspectiveExponent
        amplification := baseAmplification * (0.5 + 0.5 * (1 - rangeNormalized))
        peakEmphasis := terrainParams.peakEmphasis
        numLines := ((⌊DEFAULT_RENDER_PARAMS.numLines * terrainParams.lineMultiplier⌋ : ℤ) : ℚ) }
    let p2 : RenderParams :=
      if jsIncludes terrain.terrainType "low-" then
        { p1 with
          amplification := p1.amplification * 0.7
          horizonPosition := p1.horizonPosition * 0.9
          numLines := min 55 (p1.numLines * 1.15) }
      else if jsIncludes terrain.terrainType "high-" then
        { p1 with
          perspectiveExponent := p1.perspectiveExponent * 0.9
          amplification := p1.amplification * 1.05 }
      else p1
    let p3 : RenderParams :=
      if (300 : ℝ) < terrain.elevationVariability then
        { p2 with peakEmphasis := p2.peakEmphasis * 0.9 }
      else if terrain.elevationVariability < (50 : ℝ) then
        { p2 with
          peakEmphasis := p2.peakEmphasis * 1.1
          numLines := min 55 (p2.numLines * 1.1) }
      else p2
    let p4 : RenderParams :=
      if terrain.elevationRange < 100 then
        { p3 with
          amplification := min p3.amplification 300
          horizonPosition := min p3.horizonPosition 0.35 }
      else if 3000 < terrain.elevationRange then
        { p3 with
          amplification := max p3.amplification 600
          horizonPosition := max p3.horizonPosition 0.65 }
      else p3
    { p4 with numLines := ((jsRound p4.numLines : ℤ) : ℚ) }
  else
    DEFAULT_RENDER_PARAMS

/-- The twelve terrain type names documented by the specification:
flat, rolling, hilly or mountainous, optionally prefixed "low-" or "high-". -/
def documentedTerrainTypes : List String :=
  ["flat", "rolling", "hilly", "mountainous",
   "low-flat", "low-rolling", "low-hilly", "low-mountainous",
   "high-flat", "high-rolling", "high-hilly", "high-mountainous"]

/-! ### Elevation normalization
(`processElevationData`, src/generators/index.ts lines 16-51) -/

/-- Embeds `processElevationData`: the normalizedElevation computation.  The input
list holds the `elevation` field of each ElevationData entry; the canvas
transformer only fills the x/y fields and never touches the elevations, so
it is omitted.  Note the source initializes the running maximum with
`Number.MIN_VALUE`, which is the smallest *positive* double. -/
def processElevationData (dataArray : List ℚ) : List ℚ :=
  let minElevation := dataArray.foldl min jsNumberMaxValue
  let maxElevation := dataArray.foldl max jsNumberMinValue
  let elevationRange := maxElevation - minElevation
  dataArray.map (fun e =>
    if 0 < elevationRange then (e - minElevation) / elevationRange else 0.5)

/-! ### Area validation
(`validateAreaForRelief`, src/generators/index.ts lines 72-153) -/

/-- Rejection reasons of validateAreaForRelief, standing for the four
human-readable `reason` strings of the source. -/
inductive RejectReason where
  | centerWater
  | mostlyWater
  | insufficientData
  | insufficientRange
deriving DecidableEq

/-- Shape of the object returned by validateAreaForRelief (the `summary`
string is presentation only and omitted). -/
structure AreaValidation where
  isValid : Bool
  reason : Option RejectReason
  waterPercentage : Option ℚ
  elevationRange : Option ℚ
deriving DecidableEq

/-- Embeds `validateAreaForRelief` (generators/index.ts lines 72-153).  The grid
sampling I/O is externalized: `gridIsWater` holds the `isWater` flags of the
4x4 grid results, `gridElevation` the per-point elevation when the fetch
succeeded, `centerIsWater` the separate strict center check, and
`minElevationRange` is `config.geographic.minElevationRange`. -/
def validateAreaForRelief (centerIsWater : Bool) (gridIsWater : List Bool)
    (gridElevation : List (Option ℚ)) (minElevationRange : ℚ) : AreaValidation :=
  let waterPointCount := (gridIsWater.filter id).length
  let waterPercentage : ℚ := ((waterPointCount : ℚ) / (gridIsWater.length : ℚ)) * 100
  if centerIsWater then
    { isValid := false, reason := some .centerWater, waterPercentage := none,
      elevationRange := none }
  else if 85 < waterPercentage then
    { isValid := false, reason := some .mostlyWater, waterPercentage := some waterPercentage,
      elevationRange := none }
  else
    let validElevations := gridElevation.filterMap id
    if validElevations.length < 3 then
      { isValid := false, reason := some .insufficientData, waterPercentage := none,
        elevationRange := none }
    else
      let minElevation := validElevations.foldl min (validElevations.headD 0)
      let maxElevation := validElevations.foldl max (validElevations.headD 0)
      let elevationRange := maxElevation - minElevation
      if elevationRange < minElevationRange then
        { isValid := false, reason := some .insufficientRange, waterPercentage := none,
          elevationRange := some elevationRange }
      else
        { isValid := true, reason := none, waterPercentage := some waterPercentage,
          elevationRange := some elevationRange }

/-! ### Tile cache
(src/api/elevation.ts: tileCache, cacheTileData lines 448-466,
fetchFromMapbox cache management lines 586-603) -/

/-- Tile keys are the strings `zoom-x-y`; the dash-separated format is
injective on the integer triples, so the key is modelled as the triple. -/
abbrev TileKey := ℤ × ℤ × ℤ

/-- CachedTile record (elevation.ts lines 146-151). -/
structure CachedTile where
  tileData : List ℕ
  width : ℕ
  height : ℕ
  timestamp : ℕ
deriving DecidableEq

/-- The tile cache: a JavaScript `Map` in insertion order, modelled as an
association list whose head is the oldest-inserted entry. -/
abbrev TileCache := List (TileKey × CachedTile)

def MAX_CACHE_SIZE : ℕ := 1000

/-- JavaScript `Map.prototype.has`. -/
def mapHasKey (cache : TileCache) (k : TileKey) : Bool :=
  cache.any (fun e => decide (e.1 = k))

/-- JavaScript `Map.prototype.set`: replaces in place (keeping insertion
order) when the key is present, otherwise appends at the end. -/
def mapSetTile (cache : TileCache) (k : TileKey) (v : CachedTile) : TileCache :=
  if mapHasKey cache k then cache.map (fun e => if e.1 = k then (k, v) else e)
  else cache ++ [(k, v)]

/-- Models `tileCache.keys().next().value` followed by `tileCache.delete(oldestKey)`:
removes the oldest-inserted entry; on an empty map `oldestKey` is undefined
and nothing is deleted. -/
def evictOldestTile (cache : TileCache) : TileCache :=
  match cache with
  | [] => []
  | _ :: rest => rest

/-- The common insertion pattern of cacheTileData (elevation.ts 448-466) and
the fetchFromMapbox cache block (586-603): evict the oldest entry when the
cache is at capacity, then `set` the new tile. -/
def cachePutTile (cache : TileCache) (k : TileKey) (v : CachedTile) : TileCache :=
  let trimmed := if MAX_CACHE_SIZE ≤ cache.length then evictOldestTile cache else cache
  mapSetTile trimmed k v

/-- Embeds `cacheTileData`, which stores a 1x1 placeholder tile with an empty pixel buffer
(elevation.ts lines 459-465). -/
def placeholderTile (timestamp : ℕ) : CachedTile :=
  { tileData := [], width := 1, height := 1, timestamp := timestamp }

def cacheTileData (cache : TileCache) (k : TileKey) (timestamp : ℕ) : TileCache :=
  cachePutTile cache k (placeholderTile timestamp)

/-- Concrete key sequence used to witness the eviction law: 1001 distinct
zoom-14 tile keys. -/
def c6Keys : List TileKey :=
  (List.range 1001).map (fun n : ℕ => ((14 : ℤ), (n : ℤ), (0 : ℤ)))

/-! ### Tile geodesy
(src/api/elevation.ts: getTileCoordinates lines 370-380,
getPositionInTile lines 313-325) -/

open Real in
/-- Embeds `getTileCoordinates(lat, lon, zoom)` (elevation.ts lines 370-380). -/
noncomputable def getTileCoordinates (lat lon : ℝ) (zoom : ℕ) : ℤ × ℤ :=
  let latRad := lat * π / 180
  let n : ℝ := 2 ^ zoom
  (⌊(lon + 180) / 360 * n⌋,
   ⌊(1 - Real.log (Real.tan latRad + 1 / Real.cos latRad) / π) / 2 * n⌋)

open Real in
/-- Embeds `getPositionInTile(lat, lon, zoom, tileX, tileY, tileSize)`
(elevation.ts lines 313-325); `tileSize` defaults to 512 at the call sites. -/
noncomputable def getPositionInTile (lat lon : ℝ) (zoom : ℕ) (tileX tileY : ℤ)
    (tileSize : ℝ) : ℤ × ℤ :=
  let n : ℝ := 2 ^ zoom
  let xTile := (lon + 180) / 360 * n
  let yTile := (1 - Real.log (Real.tan (lat * π / 180) + 1 / Real.cos (lat * π / 180)) / π)
      / 2 * n
  (⌊(xTile - (tileX : ℝ)) * tileSize⌋, ⌊(yTile - (tileY : ℝ)) * tileSize⌋)

/-! ### Elevation extraction from a decoded tile
(`extractElevationFromTile`, src/api/elevation.ts lines 257-308) -/

/-- One iteration of the sampling loop of extractElevationFromTile (lines
278-300): skip out-of-bounds neighbors, read the R, G, B channels at the
pixel's buffer index, decode with the terrain-RGB formula and keep the
value only when it is finite.  The pixel buffer is the decoded PNG byte
array; reading past its end yields `undefined` in JavaScript, which makes
the decoded value NaN, which the `isFinite` filter discards — modelled by
the `Option` match (a triple of in-range reads always decodes to a finite
number, so it is always kept). -/
def samplePixelElevation (imageData : List ℕ) (width height : ℕ)
    (sampleX sampleY : ℤ) : Option ℚ :=
  if sampleX < 0 ∨ (width : ℤ) ≤ sampleX ∨ sampleY < 0 ∨ (height : ℤ) ≤ sampleY then
    none
  else
    let idx := ((sampleY * (width : ℤ) + sampleX) * 4).toNat
    match imageData[idx]?, imageData[idx + 1]?, imageData[idx + 2]? with
    | some r, some g, some b =>
      some (-10000 + (((r * 256 * 256 + g * 256 + b : ℕ) : ℚ) * 0.1))
    | _, _, _ => none

/-- The `elevations` list built by extractElevationFromTile (lines 275-300):
decoded values of the 3x3 neighborhood of the clamped target pixel.
`px`/`py` are the integer pixel position computed by getPositionInTile. -/
def neighborElevationSamples (imageData : List ℕ) (width height : ℕ) (px py : ℤ) :
    List ℚ :=
  let x := min (max px 0) ((width : ℤ) - 1)
  let y := min (max py 0) ((height : ℤ) - 1)
  ([-1, 0, 1] : List ℤ).flatMap (fun yOffset =>
    ([-1, 0, 1] : List ℤ).filterMap (fun xOffset =>
      samplePixelElevation imageData width height (x + xOffset) (y + yOffset)))

/-- Embeds `extractElevationFromTile` (lines 257-308): mean of the valid neighbor
samples; `none` models the thrown "No valid elevation values found in the
tile" error. -/
def extractElevationFromTile (imageData : List ℕ) (width height : ℕ) (px py : ℤ) :
    Option ℚ :=
  let elevations := neighborElevationSamples imageData width height px py
  if elevations.length = 0 then none
  else some (elevations.sum / (elevations.length : ℚ))

/-! ### Provider fetch result handling
(src/api/elevation.ts: fetchFromOpenTopoData lines 471-541,
fetchFromMapbox lines 546-633) -/

/-- Relevant parts of a fetch Response: the HTTP status code and the parsed
Retry-After header in seconds (none when the header is absent). -/
structure HttpResponse where
  status : ℕ
  retryAfter : Option ℕ

/-- JavaScript `response.ok`: status in the 200-299 range. -/
def responseOk (resp : HttpResponse) : Bool :=
  decide (200 ≤ resp.status) && decide (resp.status < 300)

/-- One ElevationData entry (elevation.ts lines 126-130); the elevation is
an integer at the Mapbox call site (Math.round) and a raw number otherwise,
modelled uniformly as ℚ. -/
structure ElevationData where
  latitude : ℚ
  longitude : ℚ
  elevation : ℚ
deriving DecidableEq

/-- ElevationResponse (elevation.ts lines 132-139).  `rateLimited` is an
optional field in the source, so absent and `false` are distinguished by
`Option Bool`.  The human-readable `error` strings are presentation only
and omitted. -/
structure ElevationResponse where
  status : String
  data : List ElevationData
  rateLimited : Option Bool
  fromCache : Option Bool
deriving DecidableEq

def MAX_DAILY_REQUESTS : ℕ := 1000

/-- The suggested wait computed in the 429 branch of fetchFromOpenTopoData
(lines 512-517): `retryAfter ? parseInt(retryAfter, 10) * 1000 : 5000`
milliseconds (the value is logged, not returned). -/
def openTopoRetryWaitMs (retryAfter : Option ℕ) : ℕ :=
  match retryAfter with
  | some s => s * 1000
  | none => 5000

/-- Response handling of `fetchFromOpenTopoData` (lines 471-541) as a
function of the daily request counter, the HTTP response and the parsed
body (none when the body fails to normalize; the pacing delay is I/O and
does not affect the returned value). -/
def fetchFromOpenTopoData (dailyRequestCount : ℕ) (resp : HttpResponse)
    (parsedBody : Option (List ElevationData)) : ElevationResponse :=
  if MAX_DAILY_REQUESTS ≤ dailyRequestCount then
    { status := "error", data := [], rateLimited := some true, fromCache := none }
  else if resp.status = 429 then
    { status := "error", data := [], rateLimited := some true, fromCache := none }
  else if ¬ responseOk resp then
    -- `throw` on !response.ok, caught by the surrounding try/catch
    { status := "error", data := [], rateLimited := none, fromCache := none }
  else
    match parsedBody with
    | some d => { status := "success", data := d, rateLimited := none, fromCache := none }
    | none => { status := "error", data := [], rateLimited := none, fromCache := none }

/-- Response handling of `fetchFromMapbox` (lines 546-633) as a function of
the request coordinate, the API key presence, the HTTP response and the
decoded PNG (none when decoding fails or yields an empty image).  Every
thrown error — including the missing-key case, any non-ok status such as
429, and a failed extraction — is caught by the function's try/catch and
becomes a plain error response without a rateLimited flag.  The cache
update is modelled separately by `cachePutTile`. -/
noncomputable def fetchFromMapbox (lat lon : ℝ) (hasApiKey : Bool) (resp : HttpResponse)
    (png : Option CachedTile) : ElevationResponse :=
  if ¬ hasApiKey then
    { status := "error", data := [], rateLimited := none, fromCache := none }
  else if ¬ responseOk resp then
    { status := "error", data := [], rateLimited := none, fromCache := none }
  else
    match png with
    | none => { status := "error", data := [], rateLimited := none, fromCache := none }
    | some tile =>
      let zoom := 14
      let tileCoords := getTileCoordinates lat lon zoom
      let position := getPositionInTile lat lon zoom tileCoords.1 tileCoords.2 512
      match extractElevationFromTile tile.tileData tile.width tile.height
          position.1 position.2 with
      | none => { status := "error", data := [], rateLimited := none, fromCache := none }
      | some elevation =>
        { status := "success",
          data := [{ latitude := 0, longitude := 0, elevation := ((jsRound elevation : ℤ) : ℚ) }],
          rateLimited := none, fromCache := some false }

/-! ### Deterministic noise and marker-pen strokes
(src/generators/renderers/helpers/noise.ts, contour-drawing.ts lines
196-201, config.ts lines 35-43, perspective.ts lines 28-30) -/

/-- JavaScript remainder `x % 1`: keeps the sign of the dividend. -/
noncomputable def jsRemOne (x : ℝ) : ℝ :=
  if 0 ≤ x then x - (⌊x⌋ : ℝ) else x - (⌈x⌉ : ℝ)

/-- SimpleNoise instance state (noise.ts lines 4-9): the seed. -/
structure SimpleNoise where
  seed : ℝ

/-- Embeds `hash(x) = Math.sin(x) * 43758.5453 % 1` (noise.ts lines 14-16). -/
noncomputable def SimpleNoise.hash (_self : SimpleNoise) (x : ℝ) : ℝ :=
  jsRemOne (Real.sin x * 43758.5453)

/-- Embeds `noise2d` (noise.ts lines 21-38): bilinear smoothstep interpolation of
four hashed lattice corners. -/
noncomputable def SimpleNoise.noise2d (self : SimpleNoise) (x y : ℝ) : ℝ :=
  let nx : ℝ := (⌊x⌋ : ℝ)
  let ny : ℝ := (⌊y⌋ : ℝ)
  let fx := x - nx
  let fy := y - ny
  let a := self.hash ((nx + self.seed) * 12.9898 + (ny + self.seed) * 78.233)
  let b := self.hash ((nx + 1 + self.seed) * 12.9898 + (ny + self.seed) * 78.233)
  let c := self.hash ((nx + self.seed) * 12.9898 + (ny + 1 + self.seed) * 78.233)
  let d := self.hash ((nx + 1 + self.seed) * 12.9898 + (ny + 1 + self.seed) * 78.233)
  let sx := fx * fx * (3 - 2 * fx)
  let sy := fy * fy * (3 - 2 * fy)
  a + (b - a) * sx + (c - a) * sy + (a - b - c + d) * sx * sy

/-- Embeds `get` (noise.ts lines 43-50): three octaves weighted 0.6, 0.3, 0.1.  The
source documents the result as lying "between 0 and 1". -/
noncomputable def SimpleNoise.get (self : SimpleNoise) (x y : ℝ) : ℝ :=
  self.noise2d x y * 0.6 + self.noise2d (x * 2) (y * 2) * 0.3 +
    self.noise2d (x * 4) (y * 4) * 0.1

/-- MARKER_PEN_CONFIG.strokeCount (config.ts line 36). -/
def MARKER_PEN_CONFIG_strokeCountMin : ℝ := 3

def MARKER_PEN_CONFIG_strokeCountMax : ℝ := 9

/-- The stroke-count formula of drawContourLineWithMarkerEffect
(contour-drawing.ts lines 197-201) applied to a noise value. -/
noncomputable def strokeCountOfNoiseValue (v : ℝ) : ℤ :=
  max 2 ⌊MARKER_PEN_CONFIG_strokeCountMin +
    (MARKER_PEN_CONFIG_strokeCountMax - MARKER_PEN_CONFIG_strokeCountMin) * v⌋

/-- Embeds `lineNoiseSeed = lineIndex * 100` (contour-drawing.ts line 185). -/
noncomputable def lineNoiseSeed (lineIndex : ℕ) : ℝ := (lineIndex : ℝ) * 100

/-- Number of overlapping marker-pen strokes drawn for a contour line
(contour-drawing.ts lines 196-201). -/
noncomputable def strokeCountForLine (noise : SimpleNoise) (lineIndex : ℕ) : ℤ :=
  strokeCountOfNoiseValue (noise.get (lineNoiseSeed lineIndex + 50) 0)

/-- PerspectiveRenderer state relevant to stroke synthesis: the per-instance
noise generator.  The zero-argument constructor (perspective.ts lines 28-30)
runs `new SimpleNoise(Math.random() * 10000)`; the ambient `Math.random()`
draw is surfaced as the explicit input `mathRandomDraw`. -/
structure PerspectiveRenderer where
  noise : SimpleNoise

noncomputable def PerspectiveRenderer.new (mathRandomDraw : ℝ) : PerspectiveRenderer :=
  { noise := { seed := mathRandomDraw * 10000 } }

/-! ## Theorems -/

/-- Projection equation for `analyzeTerrain` on a non-empty list, exposing
the classification chain over the computed range and mean. -/
theorem analyzeTerrain_cons_terrainType (e : ℚ) (rest : List ℚ) :
    (analyzeTerrain (e :: rest)).terrainType =
      (if (analyzeTerrain (e :: rest)).averageElevation < TERRAIN_THRESHOLDS.lowAltitude then
        "low-" ++
          (if TERRAIN_THRESHOLDS.hilly < (analyzeTerrain (e :: rest)).elevationRange then
            "mountainous"
          else if TERRAIN_THRESHOLDS.rolling < (analyzeTerrain (e :: rest)).elevationRange then
            "hilly"
          else if TERRAIN_THRESHOLDS.flat < (analyzeTerrain (e :: rest)).elevationRange then
            "rolling"
          else "flat")
      else if TERRAIN_THRESHOLDS.highAltitude < (analyzeTerrain (e :: rest)).averageElevation then
        "high-" ++
          (if TERRAIN_THRESHOLDS.hilly < (analyzeTerrain (e :: rest)).elevationRange then
            "mountainous"
          else if TERRAIN_THRESHOLDS.rolling < (analyzeTerrain (e :: rest)).elevationRange then
            "hilly"
          else if TERRAIN_THRESHOLDS.flat < (analyzeTerrain (e :: rest)).elevationRange then
            "rolling"
          else "flat")
      else
        (if TERRAIN_THRESHOLDS.hilly < (analyzeTerrain (e :: rest)).elevationRange then
          "mountainous"
        else if TERRAIN_THRESHOLDS.rolling < (analyzeTerrain (e :: rest)).elevationRange then
          "hilly"
        else if TERRAIN_THRESHOLDS.flat < (analyzeTerrain (e :: rest)).elevationRange then
          "rolling"
        else "flat")) := rfl

/-- C4 (amended): terrain classification is a total deterministic function
of the elevation statistics; the base category is flat for range ≤ 30,
rolling for 30 < range ≤ 150, hilly for 150 < range ≤ 800, mountainous for
range > 800 (the source compares with strict `>` against each threshold, so
a range exactly at a threshold stays in the lower category), and the prefix
is "low-" exactly when the mean is < 200 and "high-" exactly when the mean
is > 1000. -/
theorem analyzeTerrain_classification (e : ℚ) (rest : List ℚ) :
    (("flat".toList <:+ (analyzeTerrain (e :: rest)).terrainType.toList) ↔
      (analyzeTerrain (e :: rest)).elevationRange ≤ 30) ∧
    (("rolling".toList <:+ (analyzeTerrain (e :: rest)).terrainType.toList) ↔
      30 < (analyzeTerrain (e :: rest)).elevationRange ∧
        (analyzeTerrain (e :: rest)).elevationRange ≤ 150) ∧
    (("hilly".toList <:+ (analyzeTerrain (e :: rest)).terrainType.toList) ↔
      150 < (analyzeTerrain (e :: rest)).elevationRange ∧
        (analyzeTerrain (e :: rest)).elevationRange ≤ 800) ∧
    (("mountainous".toList <:+ (analyzeTerrain (e :: rest)).terrainType.toList) ↔
      800 < (analyzeTerrain (e :: rest)).elevationRange) ∧
    (("low-".toList <+: (analyzeTerrain (e :: rest)).terrainType.toList) ↔
      (analyzeTerrain (e :: rest)).averageElevation < 200) ∧
    (("high-".toList <+: (analyzeTerrain (e :: rest)).terrainType.toList) ↔
      1000 < (analyzeTerrain (e :: rest)).averageElevation) := by
  rw [analyzeTerrain_cons_terrainType]
  simp only [TERRAIN_THRESHOLDS] at *
  split_ifs <;>
    refine ⟨?_, ?_, ?_, ?_, ?_, ?_⟩ <;>
      constructor <;>
        intro h <;>
          first
          | exact absurd h (by decide)
          | decide
          | linarith
          | exact ⟨by linarith, by linarith⟩

/-- C4 witness: the single-sample set at 0 m instantiates the flat
characterization. -/
theorem analyzeTerrain_classification_witness :
    ("flat".toList <:+ (analyzeTerrain [(0 : ℚ)]).terrainType.toList) ↔
      (analyzeTerrain [(0 : ℚ)]).elevationRange ≤ 30 :=
  (analyzeTerrain_classification 0 []).1

/-- C4 counterexample: a sample set with elevation range exactly 30 (the
claimed strict-< reading would classify it as rolling, since 30 is not < 30
but is < 150) is classified "flat" by the code. -/
theorem analyzeTerrain_range_30_is_flat :
    (analyzeTerrain [500, 530]).elevationRange = 30 ∧
    ¬ ((analyzeTerrain [500, 530]).elevationRange < 30) ∧
    (analyzeTerrain [500, 530]).elevationRange < 150 ∧
    (analyzeTerrain [500, 530]).terrainType = "flat" ∧
    (analyzeTerrain [500, 530]).terrainType ≠ "rolling" := by
  have h : analyzeTerrain [500, 530] =
      { terrainType := "flat", elevationRange := 30, averageElevation := 515,
        elevationVariability := Real.sqrt ((225 : ℚ) : ℝ) } := by
    simp only [analyzeTerrain, List.foldl, List.sum, List.length, List.map]
    norm_num [TERRAIN_THRESHOLDS]
  rw [h]
  refine ⟨rfl, by norm_num, by norm_num, rfl, by decide⟩

/-- C10: the empty point list yields terrainType "unknown" with all three
statistics zero; "unknown" is outside the documented terrain type set; and
perspective parameter derivation treats it exactly like rolling terrain
(the switch falls through to the rolling adjustment table). -/
theorem analyzeTerrain_empty_unknown :
    analyzeTerrain [] =
      { terrainType := "unknown", elevationRange := 0, averageElevation := 0,
        elevationVariability := 0 } ∧
    "unknown" ∉ documentedTerrainTypes ∧
    ∀ style : String, style = "perspective" →
      getTerrainRenderParams (analyzeTerrain []) style =
        getTerrainRenderParams { analyzeTerrain [] with terrainType := "rolling" } style := by
  refine ⟨rfl, by decide, ?_⟩
  rintro style rfl
  have hs1 : stripAltitudeQualifier "unknown" = "unknown" := by decide
  have hs2 : stripAltitudeQualifier "rolling" = "rolling" := by decide
  have hi1 : jsIncludes "unknown" "low-" = false := by decide
  have hi2 : jsIncludes "rolling" "low-" = false := by decide
  have hi3 : jsIncludes "unknown" "high-" = false := by decide
  have hi4 : jsIncludes "rolling" "high-" = false := by decide
  show getTerrainRenderParams
      { terrainType := "unknown", elevationRange := 0, averageElevation := 0,
        elevationVariability := 0 } "perspective" =
    getTerrainRenderParams
      { terrainType := "rolling", elevationRange := 0, averageElevation := 0,
        elevationVariability := 0 } "perspective"
  simp [getTerrainRenderParams, hs1, hs2, hi1, hi2, hi3, hi4]

/-- Folding `min` over a list whose elements all dominate the accumulator
returns the accumulator. -/
theorem foldl_min_of_le (l : List ℚ) (c : ℚ) (h : ∀ x ∈ l, c ≤ x) :
    l.foldl min c = c := by
  induction l generalizing c with
  | nil => rfl
  | cons a t ih =>
    have hca : min c a = c := min_eq_left (h a (List.mem_cons_self a t))
    simpa [hca] using ih c (fun x hx => h x (List.mem_cons_of_mem a hx))

/-- Folding `min` over a list containing its lower bound `lo`, starting from
an accumulator at least `lo`, returns `lo`. -/
theorem foldl_min_eq (l : List ℚ) (a lo : ℚ) (hmem : lo ∈ l)
    (hlb : ∀ x ∈ l, lo ≤ x) (ha : lo ≤ a) : l.foldl min a = lo := by
  induction l generalizing a with
  | nil => cases hmem
  | cons b t ih =>
    rcases List.mem_cons.mp hmem with rfl | hmem2
    · have : min a lo = lo := min_eq_right ha
      simpa [this] using
        foldl_min_of_le t lo (fun x hx => hlb x (List.mem_cons_of_mem lo hx))
    · exact ih (min a b) hmem2 (fun x hx => hlb x (List.mem_cons_of_mem b hx))
        (le_min ha (hlb b (List.mem_cons_self b t)))

/-- Dual of `foldl_min_of_le` for `max`. -/
theorem foldl_max_of_ge (l : List ℚ) (c : ℚ) (h : ∀ x ∈ l, x ≤ c) :
    l.foldl max c = c := by
  induction l generalizing c with
  | nil => rfl
  | cons a t ih =>
    have hca : max c a = c := max_eq_left (h a (List.mem_cons_self a t))
    simpa [hca] using ih c (fun x hx => h x (List.mem_cons_of_mem a hx))

/-- Dual of `foldl_min_eq` for `max`. -/
theorem foldl_max_eq (l : List ℚ) (a hi : ℚ) (hmem : hi ∈ l)
    (hub : ∀ x ∈ l, x ≤ hi) (ha : a ≤ hi) : l.foldl max a = hi := by
  induction l generalizing a with
  | nil => cases hmem
  | cons b t ih =>
    rcases List.mem_cons.mp hmem with rfl | hmem2
    · have : max a hi = hi := max_eq_right ha
      simpa [this] using
        foldl_max_of_ge t hi (fun x hx => hub x (List.mem_cons_of_mem hi hx))
    · exact ih (max a b) hmem2 (fun x hx => hub x (List.mem_cons_of_mem b hx))
        (max_le ha (hub b (List.mem_cons_self b t)))

/-- C3 (amended): for a sample set within the double range whose maximum is
at least `Number.MIN_VALUE` (in particular any set with a positive maximum
elevation), normalization with positive range keeps every value in [0, 1],
sends a sample to 0 exactly when it is the minimum and to 1 exactly when it
is the maximum (so 0 and 1 are each attained, uniquely when the extremum is
unique), and a zero-range set normalizes every sample to 0.5.  (Sets whose
maximum is below `Number.MIN_VALUE` — e.g. all elevations ≤ 0 — are NOT
covered: the `Number.MIN_VALUE` initialization of the running maximum then
makes the effective range positive, so the zero-range branch is skipped and
no sample reaches 1.) -/
theorem processElevationData_spec (l : List ℚ) (lo hi : ℚ)
    (hlo : lo ∈ l) (hhi : hi ∈ l)
    (hlb : ∀ x ∈ l, lo ≤ x) (hub : ∀ x ∈ l, x ≤ hi)
    (hmaxv : hi ≤ jsNumberMaxValue) (hminv : jsNumberMinValue ≤ hi) :
    (lo < hi →
      (∀ y ∈ processElevationData l, 0 ≤ y ∧ y ≤ 1) ∧
      List.Forall₂ (fun x y => (y = 0 ↔ x = lo) ∧ (y = 1 ↔ x = hi)) l
        (processElevationData l) ∧
      (0 : ℚ) ∈ processElevationData l ∧ (1 : ℚ) ∈ processElevationData l) ∧
    (lo = hi → ∀ y ∈ processElevationData l, y = 0.5) := by
  have hlohi : lo ≤ hi := hlb hi hhi
  have hminfold : l.foldl min jsNumberMaxValue = lo :=
    foldl_min_eq l jsNumberMaxValue lo hlo hlb (le_trans hlohi hmaxv)
  have hmaxfold : l.foldl max jsNumberMinValue = hi :=
    foldl_max_eq l jsNumberMinValue hi hhi hub hminv
  constructor
  · intro hrange
    have hpos : (0 : ℚ) < hi - lo := by linarith
    have hne : hi - lo ≠ 0 := ne_of_gt hpos
    have hrun : processElevationData l = l.map (fun e => (e - lo) / (hi - lo)) := by
      simp only [processElevationData, hminfold, hmaxfold, if_pos hpos]
    refine ⟨?_, ?_, ?_, ?_⟩
    · intro y hy
      rw [hrun] at hy
      rcases List.mem_map.mp hy with ⟨x, hx, rfl⟩
      constructor
      · exact div_nonneg (by linarith [hlb x hx]) (le_of_lt hpos)
      · rw [div_le_one hpos]
        linarith [hub x hx]
    · rw [hrun]
      rw [List.forall₂_map_right_iff]
      rw [List.forall₂_same]
      intro x _
      constructor
      · rw [div_eq_zero_iff]
        constructor
        · rintro (h | h)
          · linarith
          · exact absurd h hne
        · intro h
          left
          rw [h]
          ring
      · rw [div_eq_one_iff_eq hne]
        constructor
        · intro h
          linarith
        · intro h
          rw [h]
    · rw [hrun]
      have : (0 : ℚ) = (lo - lo) / (hi - lo) := by
        rw [sub_self, zero_div]
      rw [this]
      exact List.mem_map_of_mem _ hlo
    · rw [hrun]
      have : (1 : ℚ) = (hi - lo) / (hi - lo) := by
        rw [div_self hne]
      rw [this]
      exact List.mem_map_of_mem _ hhi
  · intro heq
    intro y hy
    have hzero : ¬ (0 : ℚ) < hi - lo := by rw [heq]; simp
    simp only [processElevationData, hminfold, hmaxfold, if_neg hzero] at hy
    rcases List.mem_map.mp hy with ⟨x, _, rfl⟩
    rfl

/-- C3 witness: the sample set 100, 200 with minimum 100 and maximum 200;
both normalized bounds 0 and 1 are attained. -/
theorem processElevationData_spec_witness :
    ((100 : ℚ) < 200) ∧
    ((0 : ℚ) ∈ processElevationData [100, 200] ∧
      (1 : ℚ) ∈ processElevationData [100, 200]) := by
  have h := processElevationData_spec [100, 200] 100 200 (by simp) (by simp)
    (by intro x hx; simp only [List.mem_cons, List.not_mem_nil, or_false] at hx; rcases hx with rfl | rfl <;> norm_num)
    (by intro x hx; simp only [List.mem_cons, List.not_mem_nil, or_false] at hx; rcases hx with rfl | rfl <;> norm_num)
    (by norm_num [jsNumberMaxValue]) (by norm_num [jsNumberMinValue])
  exact ⟨by norm_num, ((h.1 (by norm_num)).2.2)⟩

/-- C3 counterexample: the zero-range sample set with both elevations 0.
The claim demands normalizedElevation 0.5 for every sample of a zero-range
set, but the code normalizes both samples to 0: the running maximum starts
at Number.MIN_VALUE > 0, so the computed range is positive and the 0.5
branch is not taken. -/
theorem processElevationData_zero_range_at_zero :
    processElevationData [0, 0] = [0, 0] ∧ ((0 : ℚ) ≠ 0.5) := by
  constructor
  · norm_num [processElevationData, jsNumberMaxValue, jsNumberMinValue, List.foldl]
  · norm_num

/-- C5: the area validator rejects exactly when the center is water, or the
water percentage strictly exceeds 85 (so exactly 85 percent passes the
water test), or fewer than 3 grid points have valid elevation, or the
elevation range over the valid points is below the configured minimum; on
acceptance it returns the water percentage and the elevation range. -/
theorem validateAreaForRelief_spec (centerIsWater : Bool) (gridIsWater : List Bool)
    (gridElevation : List (Option ℚ)) (minElevationRange : ℚ)
    (_hgrid : gridIsWater ≠ []) :
    ((validateAreaForRelief centerIsWater gridIsWater gridElevation
        minElevationRange).isValid = false ↔
      (centerIsWater = true ∨
        85 < (((gridIsWater.filter id).length : ℚ) / (gridIsWater.length : ℚ)) * 100 ∨
        (gridElevation.filterMap id).length < 3 ∨
        (gridElevation.filterMap id).foldl max ((gridElevation.filterMap id).headD 0) -
            (gridElevation.filterMap id).foldl min ((gridElevation.filterMap id).headD 0) <
          minElevationRange)) ∧
    ((validateAreaForRelief centerIsWater gridIsWater gridElevation
        minElevationRange).isValid = true →
      (validateAreaForRelief centerIsWater gridIsWater gridElevation
          minElevationRange).waterPercentage =
        some ((((gridIsWater.filter id).length : ℚ) / (gridIsWater.length : ℚ)) * 100) ∧
      (validateAreaForRelief centerIsWater gridIsWater gridElevation
          minElevationRange).elevationRange =
        some ((gridElevation.filterMap id).foldl max ((gridElevation.filterMap id).headD 0) -
          (gridElevation.filterMap id).foldl min ((gridElevation.filterMap id).headD 0))) ∧
    ((((gridIsWater.filter id).length : ℚ) / (gridIsWater.length : ℚ)) * 100 = 85 →
      centerIsWater = false →
      3 ≤ (gridElevation.filterMap id).length →
      minElevationRange ≤
        (gridElevation.filterMap id).foldl max ((gridElevation.filterMap id).headD 0) -
          (gridElevation.filterMap id).foldl min ((gridElevation.filterMap id).headD 0) →
      (validateAreaForRelief centerIsWater gridIsWater gridElevation
          minElevationRange).isValid = true) := by
  simp only [validateAreaForRelief]
  split_ifs with h1 h2 h3 h4
  · refine ⟨iff_of_true rfl (Or.inl h1), by simp, ?_⟩
    intro _ hc
    simp [h1] at hc
  · refine ⟨iff_of_true rfl (Or.inr (Or.inl h2)), by simp, ?_⟩
    intro hp
    rw [hp] at h2
    exact absurd h2 (lt_irrefl 85)
  · refine ⟨iff_of_true rfl (Or.inr (Or.inr (Or.inl h3))), by simp, ?_⟩
    intro _ _ hcount
    exact absurd h3 (by omega)
  · refine ⟨iff_of_true rfl (Or.inr (Or.inr (Or.inr h4))), by simp, ?_⟩
    intro _ _ _ hrange
    exact absurd h4 (not_lt.mpr hrange)
  · refine ⟨?_, fun _ => ⟨rfl, rfl⟩, fun _ _ _ _ => rfl⟩
    constructor
    · intro hfalse
      exact absurd hfalse (by simp)
    · rintro (h | h | h | h)
      · exact absurd h h1
      · exact absurd h h2
      · exact absurd h h3
      · exact absurd h h4

/-- C5 witness inputs: a 20-point grid with 17 water points (exactly 85
percent) and three valid elevations 0, 50, 100. -/
theorem validateAreaForRelief_spec_witness :
    (List.replicate 17 true ++ List.replicate 3 false : List Bool) ≠ [] ∧
    (validateAreaForRelief false (List.replicate 17 true ++ List.replicate 3 false)
        [some 0, some 50, some 100] 50).isValid = true := by
  have h := validateAreaForRelief_spec false
    (List.replicate 17 true ++ List.replicate 3 false) [some 0, some 50, some 100] 50
    (by decide)
  refine ⟨by decide, ?_⟩
  have hc : ((List.replicate 17 true ++ List.replicate 3 false : List Bool).filter
      id).length = 17 := by decide
  have hl : ((List.replicate 17 true ++ List.replicate 3 false : List Bool)).length = 20 := by
    decide
  refine h.2.2 ?_ rfl ?_ ?_
  · rw [hc, hl]
    norm_num
  · decide
  · norm_num [List.filterMap, List.foldl, List.headD]

/-- Lemma: `mapHasKey` agrees with membership in the key list. -/
theorem mapHasKey_eq_false_iff (cache : TileCache) (k : TileKey) :
    mapHasKey cache k = false ↔ k ∉ cache.map Prod.fst := by
  simp only [mapHasKey, Bool.eq_false_iff, ne_eq, List.any_eq_true, decide_eq_true_eq,
    List.mem_map, not_exists, not_and]

/-- Setting a fresh key appends it at the end (JavaScript Map semantics). -/
theorem mapSetTile_fresh (cache : TileCache) (k : TileKey) (v : CachedTile)
    (h : k ∉ cache.map Prod.fst) : mapSetTile cache k v = cache ++ [(k, v)] := by
  have hh := (mapHasKey_eq_false_iff cache k).mpr h
  simp [mapSetTile, hh]

/-- Lemma: `mapSetTile` grows the cache by at most one entry. -/
theorem mapSetTile_length_le (cache : TileCache) (k : TileKey) (v : CachedTile) :
    (mapSetTile cache k v).length ≤ cache.length + 1 := by
  unfold mapSetTile
  split_ifs
  · simp
  · simp

/-- Inserting below capacity with a fresh key appends the key. -/
theorem cachePutTile_fresh (cache : TileCache) (k : TileKey) (v : CachedTile)
    (hlen : cache.length < MAX_CACHE_SIZE) (h : k ∉ cache.map Prod.fst) :
    cachePutTile cache k v = cache ++ [(k, v)] := by
  have hnot : ¬ MAX_CACHE_SIZE ≤ cache.length := by omega
  simp only [cachePutTile, if_neg hnot]
  exact mapSetTile_fresh cache k v h

/-- Inserting a fresh key at capacity evicts the head and appends the key. -/
theorem cachePutTile_at_capacity (e : TileKey × CachedTile) (rest : TileCache)
    (k : TileKey) (v : CachedTile) (hcap : MAX_CACHE_SIZE ≤ (e :: rest).length)
    (hfresh : k ∉ (e :: rest).map Prod.fst) :
    cachePutTile (e :: rest) k v = rest ++ [(k, v)] := by
  simp only [cachePutTile, if_pos hcap, evictOldestTile]
  apply mapSetTile_fresh
  intro hmem
  apply hfresh
  simp only [List.map_cons]
  exact List.mem_cons_of_mem _ hmem

/-- Folding fresh distinct keys into a cache that stays below capacity
appends them all in order. -/
theorem foldl_cachePutTile_fresh (v : CachedTile) :
    ∀ (ks : List TileKey) (cache : TileCache),
      (cache.map Prod.fst ++ ks).Nodup → cache.length + ks.length ≤ MAX_CACHE_SIZE →
      (ks.foldl (fun c k => cachePutTile c k v) cache).map Prod.fst =
        cache.map Prod.fst ++ ks := by
  intro ks
  induction ks with
  | nil => intro cache _ _; simp
  | cons k t ih =>
    intro cache hnd hlen
    have hk : k ∉ cache.map Prod.fst := by
      rcases List.nodup_append.mp hnd with ⟨_, _, hdisj⟩
      intro hmem
      exact hdisj hmem (List.mem_cons_self k t)
    have hstep : cachePutTile cache k v = cache ++ [(k, v)] :=
      cachePutTile_fresh cache k v (by simp at hlen; omega) hk
    have hkeys : (cache ++ [(k, v)]).map Prod.fst = cache.map Prod.fst ++ [k] := by
      simp
    have hnd2 : ((cache ++ [(k, v)]).map Prod.fst ++ t).Nodup := by
      rw [hkeys, List.append_assoc]
      simpa using hnd
    have hlen2 : (cache ++ [(k, v)]).length + t.length ≤ MAX_CACHE_SIZE := by
      simp at hlen ⊢
      omega
    calc ((k :: t).foldl (fun c k => cachePutTile c k v) cache).map Prod.fst
        = (t.foldl (fun c k => cachePutTile c k v) (cache ++ [(k, v)])).map Prod.fst := by
          rw [List.foldl_cons, hstep]
      _ = (cache ++ [(k, v)]).map Prod.fst ++ t := ih (cache ++ [(k, v)]) hnd2 hlen2
      _ = cache.map Prod.fst ++ (k :: t) := by rw [hkeys, List.append_assoc]; rfl

/-- C6: the tile cache never exceeds its bound of 1000 entries, and
eviction is FIFO on insertion order: inserting 1001 distinct keys into the
empty cache leaves exactly the last 1000 of them, in order — the
first-inserted key is gone and every other key is present. -/
theorem tileCache_bound_and_fifo :
    (∀ (cache : TileCache) (k : TileKey) (v : CachedTile),
      cache.length ≤ MAX_CACHE_SIZE → (cachePutTile cache k v).length ≤ MAX_CACHE_SIZE) ∧
    (∀ (ks : List TileKey) (v : CachedTile), ks.Nodup →
      ks.length = MAX_CACHE_SIZE + 1 →
      (ks.foldl (fun c k => cachePutTile c k v) []).map Prod.fst = ks.tail ∧
      (ks.foldl (fun c k => cachePutTile c k v) []).length = MAX_CACHE_SIZE ∧
      (∀ k0, ks.head? = some k0 →
        k0 ∉ (ks.foldl (fun c k => cachePutTile c k v) []).map Prod.fst) ∧
      (∀ k ∈ ks.tail, k ∈ (ks.foldl (fun c k => cachePutTile c k v) []).map Prod.fst)) := by
  constructor
  · intro cache k v hle
    by_cases hcap : MAX_CACHE_SIZE ≤ cache.length
    · have h1 : (evictOldestTile cache).length + 1 ≤ cache.length := by
        rcases cache with _ | ⟨e, rest⟩
        · simp [MAX_CACHE_SIZE] at hcap
        · simp [evictOldestTile]
      calc (cachePutTile cache k v).length
          = (mapSetTile (evictOldestTile cache) k v).length := by
            simp only [cachePutTile, if_pos hcap]
        _ ≤ (evictOldestTile cache).length + 1 := mapSetTile_length_le _ _ _
        _ ≤ cache.length := h1
        _ ≤ MAX_CACHE_SIZE := hle
    · calc (cachePutTile cache k v).length
          = (mapSetTile cache k v).length := by
            simp only [cachePutTile, if_neg hcap]
        _ ≤ cache.length + 1 := mapSetTile_length_le _ _ _
        _ ≤ MAX_CACHE_SIZE := by
            simp only [MAX_CACHE_SIZE] at hcap ⊢
            omega
  · intro ks v hnd hlen
    have hne : ks ≠ [] := by
      intro h
      rw [h] at hlen
      simp [MAX_CACHE_SIZE] at hlen
    have hsplit : ks.dropLast ++ [ks.getLast hne] = ks := List.dropLast_append_getLast hne
    have hinitnd : (ks.dropLast ++ [ks.getLast hne]).Nodup := by rw [hsplit]; exact hnd
    have hinitlen : ks.dropLast.length = MAX_CACHE_SIZE := by
      have := ks.length_dropLast
      omega
    have hc1 : ((ks.dropLast).foldl (fun c k => cachePutTile c k v) []).map Prod.fst =
        ks.dropLast := by
      have := foldl_cachePutTile_fresh v ks.dropLast []
        (by simpa using (List.nodup_append.mp hinitnd).1) (by simp [hinitlen])
      simpa using this
    have hc1len : ((ks.dropLast).foldl (fun c k => cachePutTile c k v) []).length =
        MAX_CACHE_SIZE := by
      have h2 := congrArg List.length hc1
      simpa [hinitlen] using h2
    have hc1ne : (ks.dropLast).foldl (fun c k => cachePutTile c k v) [] ≠ [] := by
      intro h
      rw [h] at hc1len
      simp [MAX_CACHE_SIZE] at hc1len
    obtain ⟨e, rest, hc1shape⟩ :=
      List.exists_cons_of_ne_nil hc1ne
    rw [hc1shape] at hc1 hc1len
    have hrestlen : rest.length = MAX_CACHE_SIZE - 1 := by
      simp at hc1len
      omega
    have hdropshape : e.1 :: rest.map Prod.fst = ks.dropLast := by
      simpa using hc1
    have hlastfresh : ks.getLast hne ∉ (e :: rest).map Prod.fst := by
      rw [hc1]
      rcases List.nodup_append.mp hinitnd with ⟨_, _, hdisj⟩
      intro hmem
      exact hdisj hmem (List.mem_cons_self _ _)
    have hfold : ks.foldl (fun c k => cachePutTile c k v) [] =
        cachePutTile (e :: rest) (ks.getLast hne) v := by
      conv_lhs => rw [← hsplit]
      rw [List.foldl_append, hc1shape]
      rfl
    have hput : ks.foldl (fun c k => cachePutTile c k v) [] =
        rest ++ [(ks.getLast hne, v)] := by
      rw [hfold]
      exact cachePutTile_at_capacity e rest (ks.getLast hne) v
        (by simp [hrestlen]; omega) hlastfresh
    have hkeys : (ks.foldl (fun c k => cachePutTile c k v) []).map Prod.fst =
        rest.map Prod.fst ++ [ks.getLast hne] := by
      rw [hput]
      simp
    have hksshape : ks = e.1 :: (rest.map Prod.fst ++ [ks.getLast hne]) := by
      conv_lhs => rw [← hsplit, ← hdropshape]
      rfl
    have htail : ks.tail = rest.map Prod.fst ++ [ks.getLast hne] := by
      have h2 := congrArg List.tail hksshape
      simpa using h2
    refine ⟨by rw [hkeys, htail], ?_, ?_, ?_⟩
    · rw [hput]
      simp only [List.length_append, List.length_singleton, hrestlen, MAX_CACHE_SIZE]
    · intro k0 hk0
      have hk0e : k0 = e.1 := by
        rw [hksshape] at hk0
        simp at hk0
        exact hk0.symm
      subst hk0e
      rw [hkeys]
      have hnd2 := hnd
      rw [hksshape] at hnd2
      exact (List.nodup_cons.mp hnd2).1
    · intro k hk
      rw [hkeys, ← htail]
      exact hk

/-- C6 witness: 1001 distinct concrete zoom-14 tile keys folded into the
empty cache leave exactly the 1000 most recent keys. -/
theorem tileCache_bound_and_fifo_witness :
    c6Keys.Nodup ∧ c6Keys.length = MAX_CACHE_SIZE + 1 ∧
    (c6Keys.foldl (fun c k => cachePutTile c k (placeholderTile 0)) []).map Prod.fst =
      c6Keys.tail := by
  have hnd : c6Keys.Nodup := by
    refine List.Nodup.map ?_ (List.nodup_range 1001)
    intro a b hab
    simpa using hab
  have hlen : c6Keys.length = MAX_CACHE_SIZE + 1 := by
    rw [c6Keys, List.length_map, List.length_range]
    rfl
  exact ⟨hnd, hlen,
    (tileCache_bound_and_fifo.2 c6Keys (placeholderTile 0) hnd hlen).1⟩

/-- C10 witness at the concrete style "perspective". -/
theorem analyzeTerrain_empty_unknown_witness :
    ("perspective" : String) = "perspective" ∧
    getTerrainRenderParams (analyzeTerrain []) "perspective" =
      getTerrainRenderParams { analyzeTerrain [] with terrainType := "rolling" }
        "perspective" :=
  ⟨rfl, analyzeTerrain_empty_unknown.2.2 "perspective" rfl⟩

/-- C7 (amended): on HTTP 429 the per-point OpenTopoData provider reports
rateLimited with a suggested wait of Retry-After seconds times 1000,
defaulting to 5000 ms when the header is absent; the Mapbox tile provider
has no 429 branch — any non-ok status, 429 included, is thrown and caught
as a generic error response without a rateLimited flag. -/
theorem provider_429_handling :
    (∀ (daily : ℕ) (retryAfter : Option ℕ) (body : Option (List ElevationData)),
      daily < MAX_DAILY_REQUESTS →
      (fetchFromOpenTopoData daily ⟨429, retryAfter⟩ body).rateLimited = some true ∧
      (fetchFromOpenTopoData daily ⟨429, retryAfter⟩ body).status = "error") ∧
    (openTopoRetryWaitMs none = 5000) ∧
    (∀ s : ℕ, openTopoRetryWaitMs (some s) = s * 1000) ∧
    (∀ (lat lon : ℝ) (hasApiKey : Bool) (retryAfter : Option ℕ) (png : Option CachedTile),
      (fetchFromMapbox lat lon hasApiKey ⟨429, retryAfter⟩ png).rateLimited = none ∧
      (fetchFromMapbox lat lon hasApiKey ⟨429, retryAfter⟩ png).status = "error") := by
  refine ⟨?_, rfl, fun s => rfl, ?_⟩
  · intro daily retryAfter body hdaily
    have hnot : ¬ MAX_DAILY_REQUESTS ≤ daily := by omega
    constructor <;> simp [fetchFromOpenTopoData, hnot]
  · intro lat lon hasApiKey retryAfter png
    have hok : responseOk ⟨429, retryAfter⟩ = false := rfl
    cases hasApiKey
    · constructor <;> rfl
    · rcases png with _ | tile
      · constructor <;> rfl
      · constructor <;> simp [fetchFromMapbox, hok]

/-- C7 witness: OpenTopoData at 429 with a Retry-After of 7 seconds, zero
requests used today. -/
theorem provider_429_handling_witness :
    (0 : ℕ) < MAX_DAILY_REQUESTS ∧
    (fetchFromOpenTopoData 0 ⟨429, some 7⟩ none).rateLimited = some true :=
  ⟨by norm_num [MAX_DAILY_REQUESTS],
    (provider_429_handling.1 0 (some 7) none (by norm_num [MAX_DAILY_REQUESTS])).1⟩

/-- C7 counterexample: the tile provider (Mapbox) answers an HTTP 429 with
a plain error response whose rateLimited field is absent — it does not
report RateLimited, contradicting the claim for "both providers". -/
theorem fetchFromMapbox_429_not_rateLimited :
    (fetchFromMapbox 0 0 true ⟨429, none⟩ none).rateLimited = none ∧
    (fetchFromMapbox 0 0 true ⟨429, none⟩ none).status = "error" ∧
    (none : Option Bool) ≠ some true := by
  refine ⟨rfl, rfl, by simp⟩

/-- A pixel whose four bounds checks pass and whose three channel reads
succeed contributes a decoded sample (it is never discarded: any real
number triple decodes to a finite value). -/
theorem samplePixelElevation_isSome (imageData : List ℕ) (width height : ℕ) (sx sy : ℤ)
    (hx0 : 0 ≤ sx) (hxw : sx < (width : ℤ)) (hy0 : 0 ≤ sy) (hyh : sy < (height : ℤ))
    (hbuf : 4 * width * height ≤ imageData.length) :
    (samplePixelElevation imageData width height sx sy).isSome := by
  have hw0 : (0 : ℤ) ≤ (width : ℤ) := by positivity
  have hM0 : 0 ≤ sy * (width : ℤ) + sx := by
    have := mul_nonneg hy0 hw0
    linarith
  have hMlt : sy * (width : ℤ) + sx ≤ (width : ℤ) * (height : ℤ) - 1 := by
    nlinarith [mul_le_mul_of_nonneg_right (by linarith : sy ≤ (height : ℤ) - 1) hw0]
  have hcast : (((sy * (width : ℤ) + sx) * 4).toNat : ℤ) = (sy * (width : ℤ) + sx) * 4 :=
    Int.toNat_of_nonneg (by linarith)
  have hlen : ((imageData.length : ℤ)) ≥ 4 * (width : ℤ) * (height : ℤ) := by
    exact_mod_cast hbuf
  have hidx : ((sy * (width : ℤ) + sx) * 4).toNat + 2 < imageData.length := by
    have h1 : (sy * (width : ℤ) + sx) * 4 + 2 < 4 * (width : ℤ) * (height : ℤ) := by
      linarith
    have h2 : (((sy * (width : ℤ) + sx) * 4).toNat : ℤ) + 2 < (imageData.length : ℤ) := by
      rw [hcast]
      linarith
    exact_mod_cast h2
  obtain ⟨r, hr⟩ : ∃ r, imageData[((sy * (width : ℤ) + sx) * 4).toNat]? = some r :=
    ⟨_, List.getElem?_eq_getElem (by omega)⟩
  obtain ⟨g, hg⟩ : ∃ g, imageData[((sy * (width : ℤ) + sx) * 4).toNat + 1]? = some g :=
    ⟨_, List.getElem?_eq_getElem (by omega)⟩
  obtain ⟨b, hb⟩ : ∃ b, imageData[((sy * (width : ℤ) + sx) * 4).toNat + 2]? = some b :=
    ⟨_, List.getElem?_eq_getElem (by omega)⟩
  have hcond : ¬ (sx < 0 ∨ (width : ℤ) ≤ sx ∨ sy < 0 ∨ (height : ℤ) ≤ sy) := by omega
  simp only [samplePixelElevation, if_neg hcond, hr, hg, hb]
  rfl

/-- A filterMap over the three offsets where every sample is present keeps
all three entries. -/
theorem length_filterMap_offsets (f : ℤ → Option ℚ)
    (h : ∀ o ∈ ([-1, 0, 1] : List ℤ), (f o).isSome) :
    (([-1, 0, 1] : List ℤ).filterMap f).length = 3 := by
  obtain ⟨a1, e1⟩ := Option.isSome_iff_exists.mp (h (-1) (by simp))
  obtain ⟨a2, e2⟩ := Option.isSome_iff_exists.mp (h 0 (by simp))
  obtain ⟨a3, e3⟩ := Option.isSome_iff_exists.mp (h 1 (by simp))
  simp [List.filterMap_cons, e1, e2, e3]

/-- C1 (amended): elevation extraction samples the 3x3 neighborhood of the
clamped-to-bounds target pixel, decodes each channel triple with
elevation = -10000 + (R*65536 + G*256 + B)*0.1, and returns the arithmetic
mean of the samples, failing when no neighbor yields a valid value (which
happens exactly when every neighbor is out of bounds or its channel bytes
are missing from the buffer).  Every pixel whose three channel reads
succeed is KEPT regardless of the decoded magnitude — the isFinite filter
never rejects an in-buffer byte triple, so there is no out-of-channel-range
rejection.  A (R=1,G=0,B=0) pixel decodes to -3446.4; the 1x1
placeholder tile with an empty buffer fails with NoValidSamples. -/
theorem extractElevationFromTile_spec :
    (∀ (imageData : List ℕ) (width height : ℕ) (px py : ℤ),
      extractElevationFromTile imageData width height px py = none ↔
        neighborElevationSamples imageData width height px py = []) ∧
    (∀ (imageData : List ℕ) (width height : ℕ) (px py : ℤ),
      neighborElevationSamples imageData width height px py ≠ [] →
      extractElevationFromTile imageData width height px py =
        some ((neighborElevationSamples imageData width height px py).sum /
          ((neighborElevationSamples imageData width height px py).length : ℚ))) ∧
    (∀ (imageData : List ℕ) (width height : ℕ) (px py : ℤ),
      extractElevationFromTile imageData width height px py =
        extractElevationFromTile imageData width height
          (min (max px 0) ((width : ℤ) - 1)) (min (max py 0) ((height : ℤ) - 1))) ∧
    (∀ (imageData : List ℕ) (width height : ℕ) (px py : ℤ),
      (neighborElevationSamples imageData width height px py).length ≤ 9) ∧
    (∀ (imageData : List ℕ) (width height : ℕ) (sx sy : ℤ) (r g b : ℕ),
      0 ≤ sx → sx < (width : ℤ) → 0 ≤ sy → sy < (height : ℤ) →
      imageData[((sy * (width : ℤ) + sx) * 4).toNat]? = some r →
      imageData[((sy * (width : ℤ) + sx) * 4).toNat + 1]? = some g →
      imageData[((sy * (width : ℤ) + sx) * 4).toNat + 2]? = some b →
      samplePixelElevation imageData width height sx sy =
        some (-10000 + (((r * 256 * 256 + g * 256 + b : ℕ) : ℚ) * 0.1))) ∧
    (∀ (imageData : List ℕ) (width height : ℕ) (sx sy : ℤ),
      imageData[((sy * (width : ℤ) + sx) * 4).toNat + 2]? = none →
      samplePixelElevation imageData width height sx sy = none) ∧
    (∀ (imageData : List ℕ) (width height : ℕ) (px py : ℤ),
      1 ≤ px → px ≤ (width : ℤ) - 2 → 1 ≤ py → py ≤ (height : ℤ) - 2 →
      4 * width * height ≤ imageData.length →
      (neighborElevationSamples imageData width height px py).length = 9) ∧
    (extractElevationFromTile [1, 0, 0, 255] 1 1 0 0 = some (-17232 / 5)) ∧
    (extractElevationFromTile [] 1 1 0 0 = none) := by
  have hclampx : ∀ (a : ℤ) (b : ℤ),
      min (max (min (max a 0) b) 0) b = min (max a 0) b := by
    intro a b
    omega
  refine ⟨?_, ?_, ?_, ?_, ?_, ?_, ?_, ?_, rfl⟩
  · intro imageData width height px py
    simp only [extractElevationFromTile]
    split_ifs with h
    · exact iff_of_true rfl (List.length_eq_zero.mp h)
    · exact iff_of_false (by simp) (fun he => h (by rw [he]; rfl))
  · intro imageData width height px py h
    simp only [extractElevationFromTile]
    rw [if_neg (fun h0 => h (List.length_eq_zero.mp h0))]
  · intro imageData width height px py
    simp only [extractElevationFromTile, neighborElevationSamples, hclampx]
  · intro imageData width height px py
    have hone : ∀ f : ℤ → Option ℚ, (([-1, 0, 1] : List ℤ).filterMap f).length ≤ 3 :=
      fun f => by simpa using List.length_filterMap_le f [-1, 0, 1]
    simp only [neighborElevationSamples, List.flatMap_cons, List.flatMap_nil,
      List.append_nil, List.length_append]
    have h1 := hone (fun xOffset => samplePixelElevation imageData width height
      (min (max px 0) ((width : ℤ) - 1) + xOffset)
      (min (max py 0) ((height : ℤ) - 1) + (-1)))
    have h2 := hone (fun xOffset => samplePixelElevation imageData width height
      (min (max px 0) ((width : ℤ) - 1) + xOffset)
      (min (max py 0) ((height : ℤ) - 1) + 0))
    have h3 := hone (fun xOffset => samplePixelElevation imageData width height
      (min (max px 0) ((width : ℤ) - 1) + xOffset)
      (min (max py 0) ((height : ℤ) - 1) + 1))
    omega
  · intro imageData width height sx sy r g b hx0 hxw hy0 hyh hr hg hb
    have hcond : ¬ (sx < 0 ∨ (width : ℤ) ≤ sx ∨ sy < 0 ∨ (height : ℤ) ≤ sy) := by omega
    simp only [samplePixelElevation, if_neg hcond, hr, hg, hb]
  · intro imageData width height sx sy hb
    simp only [samplePixelElevation]
    split_ifs with hcond
    · rfl
    · rcases h1 : imageData[((sy * (width : ℤ) + sx) * 4).toNat]? with _ | r <;>
        rcases h2 : imageData[((sy * (width : ℤ) + sx) * 4).toNat + 1]? with _ | g <;>
          simp [h1, h2, hb]
  · intro imageData width height px py hx1 hx2 hy1 hy2 hbuf
    have hxc : min (max px 0) ((width : ℤ) - 1) = px := by omega
    have hyc : min (max py 0) ((height : ℤ) - 1) = py := by omega
    have hsome : ∀ xo yo : ℤ, -1 ≤ xo → xo ≤ 1 → -1 ≤ yo → yo ≤ 1 →
        (samplePixelElevation imageData width height (px + xo) (py + yo)).isSome := by
      intro xo yo hxo1 hxo2 hyo1 hyo2
      exact samplePixelElevation_isSome imageData width height (px + xo) (py + yo)
        (by omega) (by omega) (by omega) (by omega) hbuf
    have hrow : ∀ yo : ℤ, -1 ≤ yo → yo ≤ 1 →
        (([-1, 0, 1] : List ℤ).filterMap (fun xOffset =>
          samplePixelElevation imageData width height (px + xOffset) (py + yo))).length =
          3 := by
      intro yo hyo1 hyo2
      apply length_filterMap_offsets
      intro o ho
      have : -1 ≤ o ∧ o ≤ 1 := by
        simp only [List.mem_cons, List.not_mem_nil, or_false] at ho
        omega
      exact hsome o yo this.1 this.2 hyo1 hyo2
    simp only [neighborElevationSamples, hxc, hyc, List.flatMap_cons, List.flatMap_nil,
      List.append_nil, List.length_append]
    rw [hrow (-1) (by norm_num) (by norm_num), hrow 0 (by norm_num) (by norm_num),
      hrow 1 (by norm_num) (by norm_num)]
  · have h1 : neighborElevationSamples [1, 0, 0, 255] 1 1 0 0 =
        [-10000 + ((1 * 256 * 256 + 0 * 256 + 0 : ℕ) : ℚ) * 0.1] := rfl
    simp only [extractElevationFromTile, h1]
    norm_num

/-- C1 witness: the mean formula applied at the concrete one-pixel tile. -/
theorem extractElevationFromTile_spec_witness :
    neighborElevationSamples [1, 0, 0, 255] 1 1 0 0 ≠ [] ∧
    extractElevationFromTile [1, 0, 0, 255] 1 1 0 0 =
      some ((neighborElevationSamples [1, 0, 0, 255] 1 1 0 0).sum /
        ((neighborElevationSamples [1, 0, 0, 255] 1 1 0 0).length : ℚ)) := by
  have hne : neighborElevationSamples [1, 0, 0, 255] 1 1 0 0 ≠ [] := by
    intro h
    have : (neighborElevationSamples [1, 0, 0, 255] 1 1 0 0).length = 1 := rfl
    rw [h] at this
    simp at this
  exact ⟨hne, extractElevationFromTile_spec.2.1 [1, 0, 0, 255] 1 1 0 0 hne⟩

/-- C1 counterexample: a pixel with channel bytes (0,0,64) — the Uint8Array
truncation of the spec's out-of-range B = 100000/0.1 — is accepted and
decodes to -9993.6, and even an (impossible for a byte buffer) raw channel
value of 1000000 would be accepted with value 90000: the code never
rejects a pixel for being out of channel range. -/
theorem extractElevationFromTile_out_of_range_accepted :
    extractElevationFromTile [0, 0, 64, 255] 1 1 0 0 = some (-49968 / 5) ∧
    extractElevationFromTile [0, 0, 1000000, 255] 1 1 0 0 = some 90000 ∧
    (some ((-49968 : ℚ) / 5) ≠ none) := by
  refine ⟨?_, ?_, by simp⟩
  · have h1 : neighborElevationSamples [0, 0, 64, 255] 1 1 0 0 =
        [-10000 + ((0 * 256 * 256 + 0 * 256 + 64 : ℕ) : ℚ) * 0.1] := rfl
    simp only [extractElevationFromTile, h1]
    norm_num
  · have h1 : neighborElevationSamples [0, 0, 1000000, 255] 1 1 0 0 =
        [-10000 + ((0 * 256 * 256 + 0 * 256 + 1000000 : ℕ) : ℚ) * 0.1] := rfl
    simp only [extractElevationFromTile, h1]
    norm_num

/-- Floor of 512 times a fractional part lies in [0, 512). -/
theorem floor_fract_mul_bounds (v : ℝ) :
    0 ≤ ⌊(v - ((⌊v⌋ : ℤ) : ℝ)) * 512⌋ ∧ ⌊(v - ((⌊v⌋ : ℤ) : ℝ)) * 512⌋ < 512 := by
  have h0 : 0 ≤ v - ((⌊v⌋ : ℤ) : ℝ) := by linarith [Int.floor_le v]
  have h1 : v - ((⌊v⌋ : ℤ) : ℝ) < 1 := by linarith [Int.lt_floor_add_one v]
  constructor
  · exact Int.floor_nonneg.mpr (by nlinarith)
  · apply Int.floor_lt.mpr
    push_cast
    nlinarith

/-- C2: for every latitude strictly inside (-85, 85) and longitude in
[-180, 180), the pixel position computed by getPositionInTile at zoom 14
inside the tile returned by getTileCoordinates for the same coordinate
lies in [0, 512) on both axes (512 being the default tile size used at
every call site). -/
theorem positionInTile_roundTrip (lat lon : ℝ) (_h1 : -85 < lat) (_h2 : lat < 85)
    (_h3 : -180 ≤ lon) (_h4 : lon < 180) :
    0 ≤ (getPositionInTile lat lon 14 (getTileCoordinates lat lon 14).1
        (getTileCoordinates lat lon 14).2 512).1 ∧
    (getPositionInTile lat lon 14 (getTileCoordinates lat lon 14).1
        (getTileCoordinates lat lon 14).2 512).1 < 512 ∧
    0 ≤ (getPositionInTile lat lon 14 (getTileCoordinates lat lon 14).1
        (getTileCoordinates lat lon 14).2 512).2 ∧
    (getPositionInTile lat lon 14 (getTileCoordinates lat lon 14).1
        (getTileCoordinates lat lon 14).2 512).2 < 512 := by
  simp only [getPositionInTile, getTileCoordinates]
  exact ⟨(floor_fract_mul_bounds _).1, (floor_fract_mul_bounds _).2,
    (floor_fract_mul_bounds _).1, (floor_fract_mul_bounds _).2⟩

/-- C2 witness at the equator-meridian point. -/
theorem positionInTile_roundTrip_witness :
    (-85 : ℝ) < 0 ∧
    (0 ≤ (getPositionInTile 0 0 14 (getTileCoordinates 0 0 14).1
        (getTileCoordinates 0 0 14).2 512).1 ∧
      (getPositionInTile 0 0 14 (getTileCoordinates 0 0 14).1
        (getTileCoordinates 0 0 14).2 512).1 < 512) := by
  have h := positionInTile_roundTrip 0 0 (by norm_num) (by norm_num) (by norm_num)
    (by norm_num)
  exact ⟨by norm_num, h.1, h.2.1⟩

/-- The JavaScript remainder by one keeps results strictly inside (-1, 1). -/
theorem jsRemOne_bounds (x : ℝ) : -1 < jsRemOne x ∧ jsRemOne x < 1 := by
  unfold jsRemOne
  split_ifs with h
  · constructor
    · linarith [Int.floor_le x]
    · linarith [Int.lt_floor_add_one x]
  · constructor
    · linarith [Int.ceil_lt_add_one x]
    · have := Int.le_ceil x
      push_neg at h
      linarith

/-- The noise hash lies strictly inside (-1, 1): it is NOT confined to the
[0, 1] range that the `get` doc comment promises. -/
theorem simpleNoise_hash_bounds (n : SimpleNoise) (x : ℝ) :
    -1 < n.hash x ∧ n.hash x < 1 :=
  jsRemOne_bounds _

/-- A convex bilinear combination of four values in (-1, 1) with smoothstep
weights stays in (-1, 1). -/
theorem bilinear_combination_bounds (a b c d sx sy : ℝ)
    (ha1 : -1 < a) (ha2 : a < 1) (hb1 : -1 < b) (hb2 : b < 1)
    (hc1 : -1 < c) (hc2 : c < 1) (hd1 : -1 < d) (hd2 : d < 1)
    (hsx0 : 0 ≤ sx) (hsx1 : sx ≤ 1) (hsy0 : 0 ≤ sy) (hsy1 : sy ≤ 1) :
    -1 < a + (b - a) * sx + (c - a) * sy + (a - b - c + d) * sx * sy ∧
    a + (b - a) * sx + (c - a) * sy + (a - b - c + d) * sx * sy < 1 := by
  have key : ∀ w1 w2 w3 w4 t1 t2 t3 t4 : ℝ, 0 ≤ w1 → 0 ≤ w2 → 0 ≤ w3 → 0 ≤ w4 →
      w1 + w2 + w3 + w4 = 1 → 0 < t1 → 0 < t2 → 0 < t3 → 0 < t4 →
      0 < w1 * t1 + w2 * t2 + w3 * t3 + w4 * t4 := by
    intro w1 w2 w3 w4 t1 t2 t3 t4 hw1 hw2 hw3 hw4 hsum ht1 ht2 ht3 ht4
    have hm : 0 < min (min t1 t2) (min t3 t4) := by
      simp only [lt_min_iff]
      exact ⟨⟨ht1, ht2⟩, ⟨ht3, ht4⟩⟩
    set m := min (min t1 t2) (min t3 t4) with hmdef
    have hmt1 : m ≤ t1 := le_trans (min_le_left _ _) (min_le_left _ _)
    have hmt2 : m ≤ t2 := le_trans (min_le_left _ _) (min_le_right _ _)
    have hmt3 : m ≤ t3 := le_trans (min_le_right _ _) (min_le_left _ _)
    have hmt4 : m ≤ t4 := le_trans (min_le_right _ _) (min_le_right _ _)
    have e1 : w1 * m ≤ w1 * t1 := mul_le_mul_of_nonneg_left hmt1 hw1
    have e2 : w2 * m ≤ w2 * t2 := mul_le_mul_of_nonneg_left hmt2 hw2
    have e3 : w3 * m ≤ w3 * t3 := mul_le_mul_of_nonneg_left hmt3 hw3
    have e4 : w4 * m ≤ w4 * t4 := mul_le_mul_of_nonneg_left hmt4 hw4
    have hms : w1 * m + w2 * m + w3 * m + w4 * m = m := by
      have : (w1 + w2 + w3 + w4) * m = 1 * m := by rw [hsum]
      nlinarith [this]
    linarith
  have hw1 : 0 ≤ (1 - sx) * (1 - sy) := mul_nonneg (by linarith) (by linarith)
  have hw2 : 0 ≤ sx * (1 - sy) := mul_nonneg hsx0 (by linarith)
  have hw3 : 0 ≤ (1 - sx) * sy := mul_nonneg (by linarith) hsy0
  have hw4 : 0 ≤ sx * sy := mul_nonneg hsx0 hsy0
  have hsum : (1 - sx) * (1 - sy) + sx * (1 - sy) + (1 - sx) * sy + sx * sy = 1 := by ring
  constructor
  · have hpos := key ((1 - sx) * (1 - sy)) (sx * (1 - sy)) ((1 - sx) * sy) (sx * sy)
      (1 + a) (1 + b) (1 + c) (1 + d) hw1 hw2 hw3 hw4 hsum
      (by linarith) (by linarith) (by linarith) (by linarith)
    nlinarith [hpos]
  · have hpos := key ((1 - sx) * (1 - sy)) (sx * (1 - sy)) ((1 - sx) * sy) (sx * sy)
      (1 - a) (1 - b) (1 - c) (1 - d) hw1 hw2 hw3 hw4 hsum
      (by linarith) (by linarith) (by linarith) (by linarith)
    nlinarith [hpos]

/-- Each noise2d octave lies strictly inside (-1, 1). -/
theorem simpleNoise_noise2d_bounds (n : SimpleNoise) (x y : ℝ) :
    -1 < n.noise2d x y ∧ n.noise2d x y < 1 := by
  unfold SimpleNoise.noise2d
  have hfx0 : 0 ≤ x - ((⌊x⌋ : ℤ) : ℝ) := by linarith [Int.floor_le x]
  have hfx1 : x - ((⌊x⌋ : ℤ) : ℝ) < 1 := by linarith [Int.lt_floor_add_one x]
  have hfy0 : 0 ≤ y - ((⌊y⌋ : ℤ) : ℝ) := by linarith [Int.floor_le y]
  have hfy1 : y - ((⌊y⌋ : ℤ) : ℝ) < 1 := by linarith [Int.lt_floor_add_one y]
  have hsx0 : 0 ≤ (x - ((⌊x⌋ : ℤ) : ℝ)) * (x - ((⌊x⌋ : ℤ) : ℝ)) *
      (3 - 2 * (x - ((⌊x⌋ : ℤ) : ℝ))) := by nlinarith
  have hsx1 : (x - ((⌊x⌋ : ℤ) : ℝ)) * (x - ((⌊x⌋ : ℤ) : ℝ)) *
      (3 - 2 * (x - ((⌊x⌋ : ℤ) : ℝ))) ≤ 1 := by
    nlinarith [mul_nonneg (sq_nonneg (1 - (x - ((⌊x⌋ : ℤ) : ℝ))))
      (by linarith : (0 : ℝ) ≤ 1 + 2 * (x - ((⌊x⌋ : ℤ) : ℝ)))]
  have hsy0 : 0 ≤ (y - ((⌊y⌋ : ℤ) : ℝ)) * (y - ((⌊y⌋ : ℤ) : ℝ)) *
      (3 - 2 * (y - ((⌊y⌋ : ℤ) : ℝ))) := by nlinarith
  have hsy1 : (y - ((⌊y⌋ : ℤ) : ℝ)) * (y - ((⌊y⌋ : ℤ) : ℝ)) *
      (3 - 2 * (y - ((⌊y⌋ : ℤ) : ℝ))) ≤ 1 := by
    nlinarith [mul_nonneg (sq_nonneg (1 - (y - ((⌊y⌋ : ℤ) : ℝ))))
      (by linarith : (0 : ℝ) ≤ 1 + 2 * (y - ((⌊y⌋ : ℤ) : ℝ)))]
  exact bilinear_combination_bounds _ _ _ _ _ _
    (simpleNoise_hash_bounds n _).1 (simpleNoise_hash_bounds n _).2
    (simpleNoise_hash_bounds n _).1 (simpleNoise_hash_bounds n _).2
    (simpleNoise_hash_bounds n _).1 (simpleNoise_hash_bounds n _).2
    (simpleNoise_hash_bounds n _).1 (simpleNoise_hash_bounds n _).2
    hsx0 hsx1 hsy0 hsy1

/-- The three-octave noise value lies strictly inside (-1, 1) — wider than
the "between 0 and 1" documented on `get`. -/
theorem simpleNoise_get_bounds (n : SimpleNoise) (x y : ℝ) :
    -1 < n.get x y ∧ n.get x y < 1 := by
  unfold SimpleNoise.get
  have h1 := simpleNoise_noise2d_bounds n x y
  have h2 := simpleNoise_noise2d_bounds n (x * 2) (y * 2)
  have h3 := simpleNoise_noise2d_bounds n (x * 4) (y * 4)
  constructor <;> nlinarith [h1.1, h1.2, h2.1, h2.2, h3.1, h3.2]

/-- At integer coordinates the smoothstep weights vanish, so noise2d
collapses to the single corner hash. -/
theorem simpleNoise_noise2d_zero (n : SimpleNoise) :
    n.noise2d 0 0 = n.hash (n.seed * 12.9898 + n.seed * 78.233) := by
  unfold SimpleNoise.noise2d
  norm_num

/-- C9 (code behavior): the stroke count for every drawn contour line is
between 2 and 8; under the noise contract documented on `get` (values in
[0, 1]) it would be between 3 and 9 as the claim states; but the hash
violates that contract — at seed -(pi/2)/91.2228 the noise value at the
stroke-count sampling point (0, 0) is exactly -0.5453, and that noise
value yields a stroke count of 2, outside the claimed 3..9 range. -/
theorem markerStrokeCount_spec :
    (∀ (noise : SimpleNoise) (i : ℕ),
      2 ≤ strokeCountForLine noise i ∧ strokeCountForLine noise i ≤ 8) ∧
    (∀ v : ℝ, 0 ≤ v → v ≤ 1 →
      3 ≤ strokeCountOfNoiseValue v ∧ strokeCountOfNoiseValue v ≤ 9) ∧
    (SimpleNoise.get ⟨-(Real.pi / 2) / 91.2228⟩ 0 0 = -(5453 / 10000)) ∧
    (strokeCountOfNoiseValue (-(5453 / 10000)) = 2) := by
  have hformula : ∀ v : ℝ, strokeCountOfNoiseValue v = max 2 ⌊(3 : ℝ) + 6 * v⌋ := by
    intro v
    unfold strokeCountOfNoiseValue MARKER_PEN_CONFIG_strokeCountMin
      MARKER_PEN_CONFIG_strokeCountMax
    norm_num
  refine ⟨?_, ?_, ?_, ?_⟩
  · intro noise i
    have hv := simpleNoise_get_bounds noise (lineNoiseSeed i + 50) 0
    unfold strokeCountForLine
    rw [hformula]
    constructor
    · exact le_max_left _ _
    · have hlt : (3 : ℝ) + 6 * noise.get (lineNoiseSeed i + 50) 0 < 9 := by
        nlinarith [hv.2]
      have hfl : ⌊(3 : ℝ) + 6 * noise.get (lineNoiseSeed i + 50) 0⌋ < 9 :=
        Int.floor_lt.mpr (by push_cast; linarith)
      have : ⌊(3 : ℝ) + 6 * noise.get (lineNoiseSeed i + 50) 0⌋ ≤ 8 := by omega
      exact max_le (by norm_num) this
  · intro v hv0 hv1
    rw [hformula]
    have hge : (3 : ℤ) ≤ ⌊(3 : ℝ) + 6 * v⌋ := by
      apply Int.le_floor.mpr
      push_cast
      linarith
    constructor
    · calc (3 : ℤ) ≤ ⌊(3 : ℝ) + 6 * v⌋ := hge
        _ ≤ max 2 ⌊(3 : ℝ) + 6 * v⌋ := le_max_right _ _
    · have hle : ⌊(3 : ℝ) + 6 * v⌋ ≤ 9 := by
        have : (3 : ℝ) + 6 * v ≤ 9 := by linarith
        calc ⌊(3 : ℝ) + 6 * v⌋ ≤ ⌊(9 : ℝ)⌋ := Int.floor_mono this
          _ = 9 := by norm_num
      exact max_le (by norm_num) hle
  · have harg : (⟨-(Real.pi / 2) / 91.2228⟩ : SimpleNoise).seed * 12.9898 +
        (⟨-(Real.pi / 2) / 91.2228⟩ : SimpleNoise).seed * 78.233 = -(Real.pi / 2) := by
      show -(Real.pi / 2) / 91.2228 * 12.9898 + -(Real.pi / 2) / 91.2228 * 78.233 =
        -(Real.pi / 2)
      field_simp
      ring
    have hhash : (⟨-(Real.pi / 2) / 91.2228⟩ : SimpleNoise).hash (-(Real.pi / 2)) =
        -(5453 / 10000) := by
      unfold SimpleNoise.hash
      have hsin : Real.sin (-(Real.pi / 2)) = -1 := by
        rw [Real.sin_neg, Real.sin_pi_div_two]
      rw [hsin]
      have harg2 : (-1 : ℝ) * 43758.5453 = -43758.5453 := by norm_num
      rw [harg2]
      unfold jsRemOne
      rw [if_neg (by norm_num)]
      have hceil : ⌈(-43758.5453 : ℝ)⌉ = -43758 := by
        rw [Int.ceil_eq_iff]
        norm_num
      rw [hceil]
      norm_num
    have hn2d : (⟨-(Real.pi / 2) / 91.2228⟩ : SimpleNoise).noise2d 0 0 =
        -(5453 / 10000) := by
      rw [simpleNoise_noise2d_zero, harg, hhash]
    unfold SimpleNoise.get
    rw [show (0 : ℝ) * 2 = 0 from by norm_num, show (0 : ℝ) * 4 = 0 from by norm_num]
    rw [hn2d]
    norm_num
  · rw [hformula]
    have hfl : ⌊(3 : ℝ) + 6 * -(5453 / 10000)⌋ = -1 := by
      rw [Int.floor_eq_iff]
      norm_num
    rw [hfl]
    rfl

/-- C9 witness: a noise value inside the documented range gives a stroke
count within the claimed 3..9. -/
theorem markerStrokeCount_spec_witness :
    (0 : ℝ) ≤ 1 / 2 ∧
    (3 ≤ strokeCountOfNoiseValue (1 / 2) ∧ strokeCountOfNoiseValue (1 / 2) ≤ 9) :=
  ⟨by norm_num, markerStrokeCount_spec.2.1 (1 / 2) (by norm_num) (by norm_num)⟩

/-- C8: the renderer's noise seed is Math.random() * 10000 — a function of
the ambient random draw, not of any caller-supplied argument, so two
constructions from different draws carry different seeds; the noise output
itself is a pure function of (seed, x, y): equal seeds give identical noise
everywhere. -/
theorem perspectiveRenderer_noise_seed :
    (∀ r : ℝ, (PerspectiveRenderer.new r).noise.seed = r * 10000) ∧
    ((PerspectiveRenderer.new 0.25).noise.seed ≠ (PerspectiveRenderer.new 0.75).noise.seed) ∧
    (∀ n1 n2 : SimpleNoise, n1.seed = n2.seed → ∀ x y : ℝ, n1.get x y = n2.get x y) := by
  refine ⟨fun r => rfl, ?_, ?_⟩
  · show (0.25 : ℝ) * 10000 ≠ 0.75 * 10000
    norm_num
  · rintro ⟨s1⟩ ⟨s2⟩ h x y
    simp only at h
    subst h
    rfl

/-- C8 witness: two noise instances with the same concrete seed agree. -/
theorem perspectiveRenderer_noise_seed_witness :
    (SimpleNoise.mk 5).seed = (SimpleNoise.mk 5).seed ∧
    (SimpleNoise.mk 5).get 0 0 = (SimpleNoise.mk 5).get 0 0 :=
  ⟨rfl, perspectiveRenderer_noise_seed.2.2 ⟨5⟩ ⟨5⟩ rfl 0 0⟩

end BotReliefs
